import Mathlib

/-!
Shallow embedding of `daisyui-theme-extractor` (src/src/index.ts) in Lean 4,
together with theorems settling the frozen specification claims.

Conventions of the embedding:
* JavaScript objects (`BaseStyles`, the orchestrator's `result` map, the
  inline-theme `Map`) are ordered association lists with JS write semantics:
  writing an existing key overwrites the value in place (original position
  kept), writing a fresh key appends (`objInsert`).
* `culori.formatHex` is an external library call; it is modelled as an
  explicit parameter `fmt : String → Option String` where `none` stands for
  "threw or returned a falsy value" and `some h` for the returned string.
* Filesystem paths built with `path.join(a, b, ...)` are modelled as the
  list of join arguments (segments), so candidate construction order and
  identity are preserved without modelling path normalisation.
* Dynamic module loading in `extractThemeData` is modelled by an environment
  `env : List String → CandidateBehavior` describing, per candidate path,
  whether the import throws, the default export is not callable, invocation
  throws, or invocation succeeds with a given sequence of `addBase` calls.
* The regex scanning loops (`pluginRegex.exec` under the `g` flag) are
  reimplemented character-exactly: leftmost match from the current position,
  greedy/lazy quantifier semantics (including backtracking of `[^}]*` to the
  last viable `themes:` occurrence) and resumption at the end of each match.
-/

/-- JS whitespace for `trim` / `\s` (the common ASCII subset used here:
space, tab, newline, carriage return, vertical tab, form feed). -/
def isWs (c : Char) : Bool :=
  c = ' ' || c = '\t' || c = '\n' || c = '\r' || c = '\x0b' || c = '\x0c'

/-- JS `String.prototype.trim`. -/
def jsTrim (s : String) : String :=
  String.mk (((s.data.dropWhile isWs).reverse.dropWhile isWs).reverse)

/-- JS `String.prototype.startsWith`. -/
def strStarts (s pre : String) : Bool :=
  pre.data.isPrefixOf s.data

/-- Drop the first `n` characters of a string (used to model
`String.prototype.replace(p, "")` when the key is known to start with `p`,
so the first occurrence of `p` is exactly the leading prefix). -/
def strDrop (s : String) (n : Nat) : String :=
  String.mk (s.data.drop n)

/-- Character-list core of JS `String.prototype.includes`. -/
def containsSubChars (needle : List Char) : List Char → Bool
  | [] => needle.isEmpty
  | c :: tl => needle.isPrefixOf (c :: tl) || containsSubChars needle tl

/-- JS `hay.includes(needle)`. -/
def containsSub (hay needle : String) : Bool :=
  containsSubChars needle.data hay.data

/-- Split a character list at every occurrence of a separator character,
keeping empty segments. -/
def splitChar (sep : Char) : List Char → List Char → List (List Char)
  | [], acc => [acc.reverse]
  | c :: tl, acc =>
    if c = sep then acc.reverse :: splitChar sep tl []
    else splitChar sep tl (c :: acc)

/-- JS `s.split(sep)` for a one-character separator: split at every
occurrence, keeping empty segments (an empty string yields `[""]`). -/
def splitStr (sep : Char) (s : String) : List String :=
  (splitChar sep s.data []).map String.mk

/-- Scalar style values of the source's `BaseStyles`: `string | number`. -/
inductive ScalarValue where
  | str (s : String)
  | num (n : Int)
deriving DecidableEq, Repr

/-- A `BaseStyles` value: `string | number | Record<string, string | number>`. -/
inductive StyleValue where
  | scalar (v : ScalarValue)
  | nested (m : List (String × ScalarValue))
deriving DecidableEq, Repr

/-- A `BaseStyles` record as an ordered association list. -/
def BaseStyles := List (String × StyleValue)
deriving DecidableEq

/-- JS object property write `obj[k] = v`: overwrite in place if the key is
present, else append. -/
def objInsert {β : Type} (m : List (String × β)) (k : String) (v : β) :
    List (String × β) :=
  if m.any (fun p => p.1 = k) then
    m.map (fun p => if p.1 = k then (k, v) else p)
  else m ++ [(k, v)]

/-- Key lookup in an ordered association list (JS `Map.get` /
`Map.has`; at most one entry per key ever exists under `objInsert`
writes, and lookup returns the first). -/
def lookupAssoc {β : Type} : List (String × β) → String → Option β
  | [], _ => none
  | (k, v) :: tl, t => if t = k then some v else lookupAssoc tl t

/-- The source's `convertToHex`: wrap `formatHex` in try/catch and fall back
to the input on a thrown error or a falsy return (`hex || colorString`). -/
def convertToHex (fmt : String → Option String) (colorString : String) :
    String :=
  match fmt colorString with
  | some hex => if hex = "" then colorString else hex
  | none => colorString

/-- The key-cleaning step of `convertStyles`: strip a leading `--color-`,
else a leading `--`, else leave the key unchanged.  (The source uses
`replace(p, "")` guarded by `startsWith(p)`, so the replaced first
occurrence is exactly the leading prefix.) -/
def cleanKey (k : String) : String :=
  if strStarts k "--color-" then strDrop k 8
  else if strStarts k "--" then strDrop k 2
  else k

/-- Whether a string value is a colour-conversion candidate in
`convertStyles`. -/
def isColorCandidate (s : String) : Bool :=
  containsSub s "oklch(" || containsSub s "rgb(" ||
  containsSub s "hsl(" || containsSub s "lch("

/-- The per-value branch of `convertStyles`: only string values containing a
colour-function marker are converted; numbers and nested records pass
through unchanged. -/
def convertValue (fmt : String → Option String) : StyleValue → StyleValue
  | .scalar (.str s) =>
    if isColorCandidate s then .scalar (.str (convertToHex fmt s))
    else .scalar (.str s)
  | v => v

/-- The source's `convertStyles`: iterate entries in order, clean each key,
convert candidate values, and write into a fresh object. -/
def convertStyles (fmt : String → Option String) (styles : BaseStyles) :
    BaseStyles :=
  styles.foldl (fun conv kv => objInsert conv (cleanKey kv.1) (convertValue fmt kv.2)) []

example : cleanKey "--color-primary" = "primary" := by decide
example : cleanKey "--rounded-box" = "rounded-box" := by decide
example : cleanKey "color-scheme" = "color-scheme" := by decide
example : cleanKey "----" = "--" := by decide
example : isColorCandidate "oklch(0.5 0.1 120)" = true := by decide
example : isColorCandidate "#ffffff" = false := by decide

/-- Opening brace character (written by code, kept out of string literals). -/
def braceOpen : Char := '\x7b'

/-- Closing brace character. -/
def braceClose : Char := '\x7d'

/-- First-occurrence-preserving deduplication, the semantics of
JS `[...new Set(list)]`. -/
def dedupFirst {α : Type} [DecidableEq α] (l : List α) : List α :=
  l.foldl (fun acc x => if x ∈ acc then acc else acc ++ [x]) []

/-- Match an exact literal prefix of a character list, returning the
remainder on success. -/
def stripLit : List Char → List Char → Option (List Char)
  | [], cs => some cs
  | _ :: _, [] => none
  | p :: ps, c :: cs => if c = p then stripLit ps cs else none

/-- A single or double quote, i.e. the regex class `["']`. -/
def isQuote (c : Char) : Bool := c = '"' || c = '\''

/-- Match the common head of both plugin regexes at the start of `cs`:
`@plugin` `\s+` `["']` ident `["']` `\s*` `{` — returning the remainder
after the opening brace.  All quantifiers here are deterministic (the
character after each greedy run is outside the repeated class). -/
def matchPluginHead (ident : List Char) (cs : List Char) :
    Option (List Char) := do
  let r1 ← stripLit "@plugin".data cs
  let wsn := (r1.takeWhile isWs).length
  if wsn = 0 then none
  else
    match r1.drop wsn with
    | [] => none
    | q1 :: r2 =>
      if isQuote q1 then do
        let r3 ← stripLit ident r2
        match r3 with
        | [] => none
        | q2 :: r4 =>
          if isQuote q2 then
            match r4.dropWhile isWs with
            | [] => none
            | b :: r5 => if b = braceOpen then some r5 else none
          else none
      else none

/-- One backtracking attempt for the tail `themes:\s*([^;]+);` of the
reference-block regex, with `themes:` placed at offset `t` into the text
`v` following the opening brace.  Returns the capture of group 1 and the
remainder after the whole match (the regex resumes after the `;`).
The greedy `\s*`/`([^;]+)` interplay resolves to: the match succeeds iff a
`;` exists at offset `k ≥ 1` after `themes:`; the capture runs from the end
of the whitespace run (backing up one character when the `;` immediately
follows the run, so the one-or-more group is non-empty). -/
def refThemesAttempt (v : List Char) (t : Nat) :
    Option (List Char × List Char) := do
  let u ← stripLit "themes:".data (v.drop t)
  let q := (u.takeWhile isWs).length
  let k := (u.takeWhile (fun c => c ≠ ';')).length
  if k = u.length then none
  else if k = 0 then none
  else
    let q2 := if k > q then q else q - 1
    some ((u.drop q2).take (k - q2), u.drop (k + 1))

/-- Attempt the reference-block regex
`@plugin\s+["']daisyui["']\s*\{[^}]*themes:\s*([^;]+);` anchored at the
start of `cs`.  The greedy `[^}]*` cannot cross the first closing brace, and
backtracking tries the latest viable `themes:` occurrence first. -/
def tryRefMatch (cs : List Char) : Option (List Char × List Char) := do
  let v ← matchPluginHead "daisyui".data cs
  let pre := v.takeWhile (fun c => c ≠ braceClose)
  (List.range (pre.length + 1)).reverse.findSome? (refThemesAttempt v)

/-- Global scan for the reference-block regex: leftmost match from the
current position, resuming after each match (JS `exec` with the `g` flag).
Fuel decreases once per character position or match, so an initial fuel of
`cs.length + 1` is never exhausted. -/
def scanRefAux : Nat → List Char → List (List Char)
  | 0, _ => []
  | fuel + 1, cs =>
    match tryRefMatch cs with
    | some (cap, rest) => cap :: scanRefAux fuel rest
    | none =>
      match cs with
      | [] => []
      | _ :: tl => scanRefAux fuel tl

/-- The group-1 captures of all reference-block matches, in match order. -/
def refCaptures (css : String) : List String :=
  (scanRefAux (css.data.length + 1) css.data).map String.mk

/-- Whether a character list begins with optional further whitespace
followed by `--` (the continuation of a `\s+--` match whose first
whitespace character was already consumed). -/
def cutFlagDashes : List Char → Bool
  | '-' :: '-' :: _ => true
  | c :: tl => isWs c && cutFlagDashes tl
  | [] => false

/-- The part of a list item before the leftmost `\s+--` flag marker,
i.e. element 0 of splitting the item on the regex `\s+--`. -/
def cutFlag : List Char → List Char
  | [] => []
  | c :: tl => if isWs c && cutFlagDashes tl then [] else c :: cutFlag tl

/-- Per-item cleaning in `extractThemeNamesFromCss`: trim, take the part
before the first `\s+--` flag marker, trim again. -/
def cleanRefItem (t : String) : String :=
  jsTrim (String.mk (cutFlag (jsTrim t).data))

/-- Split one captured `themes:` value on commas, clean each item, and drop
empty results. -/
def processThemesCapture (cap : String) : List String :=
  ((splitStr ',' cap).map cleanRefItem).filter (fun t => t.length > 0)

/-- The source's `extractThemeNamesFromCss`: concatenate the names of every
matched reference block in match order, then deduplicate keeping first
occurrences. -/
def extractThemeNamesFromCss (css : String) : List String :=
  dedupFirst ((refCaptures css).map processThemesCapture).flatten

/-- Attempt the inline-block regex
`@plugin\s+["']daisyui\/theme["']\s*\{([\s\S]*?)\}` anchored at the start of
`cs`: the lazy body runs to the first closing brace, which must exist.
Returns the body capture and the remainder after the closing brace. -/
def tryInlineMatch (cs : List Char) : Option (List Char × List Char) := do
  let v ← matchPluginHead "daisyui/theme".data cs
  let body := v.takeWhile (fun c => c ≠ braceClose)
  if body.length = v.length then none
  else some (body, v.drop (body.length + 1))

/-- Global scan for the inline-block regex (same scanning discipline as
`scanRefAux`). -/
def scanInlineAux : Nat → List Char → List (List Char)
  | 0, _ => []
  | fuel + 1, cs =>
    match tryInlineMatch cs with
    | some (body, rest) => body :: scanInlineAux fuel rest
    | none =>
      match cs with
      | [] => []
      | _ :: tl => scanInlineAux fuel tl

/-- The body captures of all inline-block matches, in match order. -/
def inlineBodies (css : String) : List String :=
  (scanInlineAux (css.data.length + 1) css.data).map String.mk

/-- Evaluate the anchored per-line property regex
`^([^:]+):\s*([^;]+);?\s*$` on an (already trimmed) line, returning the
trimmed key and trimmed value on a match.  Backtracking resolves to: the key
is the (non-empty) part before the first colon; with no semicolon in the
remainder the whole non-empty remainder is the value; with a first semicolon
at offset `k`, the line matches iff `k ≥ 1` and everything after the
semicolon is whitespace, the value being the part before it. -/
def parsePropLine (t : String) : Option (String × String) :=
  let cs := t.data
  let keyPart := cs.takeWhile (fun c => c ≠ ':')
  if keyPart.length = cs.length then none
  else if keyPart.length = 0 then none
  else
    let rest := cs.drop (keyPart.length + 1)
    let beforeSemi := rest.takeWhile (fun c => c ≠ ';')
    if beforeSemi.length = rest.length then
      if rest.length = 0 then none
      else some (jsTrim (String.mk keyPart), jsTrim (String.mk rest))
    else if 1 ≤ beforeSemi.length ∧ (rest.drop (beforeSemi.length + 1)).all isWs then
      some (jsTrim (String.mk keyPart), jsTrim (String.mk beforeSemi))
    else none

/-- One line of an inline block body: skip blanks and comment-initial lines;
on a property match, record `name`, store `--`-keys and `color-scheme` into
the working style map, and ignore any other key. -/
def procLine (st : String × BaseStyles) (line : String) : String × BaseStyles :=
  let trimmed := jsTrim line
  if trimmed = "" || strStarts trimmed "//" || strStarts trimmed "/*" then st
  else
    match parsePropLine trimmed with
    | none => st
    | some (k, v) =>
      if k = "name" then (v, st.2)
      else if strStarts k "--" then (st.1, objInsert st.2 k (.scalar (.str v)))
      else if k = "color-scheme" then
        (st.1, objInsert st.2 "color-scheme" (.scalar (.str v)))
      else st

/-- Fold the per-line processing over an inline block body, yielding the
last `name:` value (initially empty) and the raw working style map. -/
def blockParse (body : String) : String × BaseStyles :=
  (splitStr '\n' body).foldl procLine ("", [])

/-- A `CssThemeData` record: an inline theme name with its converted styles. -/
structure CssThemeData where
  name : String
  styles : BaseStyles
deriving DecidableEq

/-- Emission step for one inline block: emit a record (with converted
styles) only when a non-empty name was found and the raw style map is
non-empty; otherwise drop the block silently. -/
def processBlock (fmt : String → Option String) (body : String) :
    Option CssThemeData :=
  let p := blockParse body
  if p.1 ≠ "" ∧ p.2 ≠ [] then some ⟨p.1, convertStyles fmt p.2⟩ else none

/-- The source's `extractInlineThemesFromCss`: one optional record per
matched inline block, in match order. -/
def extractInlineThemesFromCss (fmt : String → Option String) (css : String) :
    List CssThemeData :=
  (inlineBodies css).filterMap (processBlock fmt)

/-- An entry of the orchestrator's error list. -/
structure ThemeError where
  theme : String
  error : String
deriving DecidableEq

/-- Candidate locations are modelled as the argument lists of the
`path.join` calls that build them. -/
def CandPath := List String
deriving DecidableEq

/-- The four candidate sub-layouts under the working directory's own
`node_modules` (Strategy 1 of `extractThemeData`). -/
def cwdCandidatePaths (cwd themeName : String) : List CandPath :=
  [ [cwd, "node_modules", "daisyui", "theme", themeName, "index.js"],
    [cwd, "node_modules", "daisyui", "dist", "theme", themeName, "index.js"],
    [cwd, "node_modules", "daisyui", "src", "theming", "themes", themeName ++ ".js"],
    [cwd, "node_modules", "daisyui", "dist", "themes", themeName ++ ".js"] ]

/-- The candidate locations one directory level up (Strategy 2 of
`extractThemeData`): only the themed-directory and distribution
themed-directory layouts. -/
def parentCandidatePaths (cwd themeName : String) : List CandPath :=
  [ [cwd, "..", "node_modules", "daisyui", "theme", themeName, "index.js"],
    [cwd, "..", "node_modules", "daisyui", "dist", "theme", themeName, "index.js"] ]

/-- The four sub-layouts under a resolved daisyui package root (Strategies 3
and 4 of `extractThemeData`). -/
def rootCandidatePaths (root themeName : String) : List CandPath :=
  [ [root, "theme", themeName, "index.js"],
    [root, "dist", "theme", themeName, "index.js"],
    [root, "src", "theming", "themes", themeName ++ ".js"],
    [root, "dist", "themes", themeName ++ ".js"] ]

/-- The full ordered candidate list of `extractThemeData` before
deduplication: Strategy 1 (cwd), Strategy 2 (parent), Strategy 3 (the
working project's manifest-resolved daisyui root, when `require.resolve`
succeeds), Strategy 4 (the tool installation's daisyui root, likewise). -/
def buildCandidatePaths (cwd themeName : String)
    (manifestRoot scriptRoot : Option String) : List CandPath :=
  cwdCandidatePaths cwd themeName ++ parentCandidatePaths cwd themeName ++
  (match manifestRoot with
   | some r => rootCandidatePaths r themeName
   | none => []) ++
  (match scriptRoot with
   | some r => rootCandidatePaths r themeName
   | none => [])

/-- What happens when `extractThemeData` tries one candidate path: the
dynamic import throws, the default export is not a function, invoking the
theme function throws, or the invocation succeeds having passed the given
sequence of partial style objects to `addBase`. -/
inductive CandidateBehavior where
  | loadError
  | notCallable
  | invokeError
  | success (calls : List BaseStyles)
deriving DecidableEq

/-- Shallow object-spread merge of one `addBase` payload into the
accumulator (`extractedStyles = { ...extractedStyles, ...base }`). -/
def spreadMerge (acc base : BaseStyles) : BaseStyles :=
  base.foldl (fun a kv => objInsert a kv.1 kv.2) acc

/-- The style accumulator after a successful invocation: every `addBase`
call shallow-merges into an initially empty object. -/
def mergeCalls (calls : List BaseStyles) : BaseStyles :=
  calls.foldl spreadMerge []

/-- The candidate loop of `extractThemeData`: return the converted
accumulator of the first candidate whose behaviour is `success`; a thrown
load, a non-callable default export and a thrown invocation all advance to
the next candidate; an exhausted list raises the not-found message naming
the theme. -/
def tryPaths (env : CandPath → CandidateBehavior)
    (fmt : String → Option String) (themeName : String) :
    List CandPath → Except String BaseStyles
  | [] => .error ("Could not import theme \x27" ++ themeName ++
      "\x27 from any known path in node_modules")
  | p :: rest =>
    match env p with
    | .success calls => .ok (convertStyles fmt (mergeCalls calls))
    | _ => tryPaths env fmt themeName rest

/-- The source's `extractThemeData`: build the candidate list, deduplicate
it, keep the candidates that exist on disk, and run the candidate loop. -/
def extractThemeData (cwd themeName : String)
    (manifestRoot scriptRoot : Option String)
    (existsOnDisk : CandPath → Bool) (env : CandPath → CandidateBehavior)
    (fmt : String → Option String) : Except String BaseStyles :=
  tryPaths env fmt themeName
    ((dedupFirst (buildCandidatePaths cwd themeName manifestRoot scriptRoot)).filter
      existsOnDisk)

/-- The per-run state of the orchestrator's theme loop.  `result` and
`errors` mirror the source; `invoked` additionally records, in order, the
names for which the loop entered its resolver branch (the `else` branch
calling `extractThemeData`), instrumenting "the resolver was invoked". -/
structure ProcState where
  result : List (String × BaseStyles)
  errors : List ThemeError
  invoked : List String
deriving DecidableEq

/-- One iteration of the orchestrator's `for (const theme of allThemes)`
loop: an inline lookup hit short-circuits resolution; otherwise the
resolver's success is written into the collection and its failure is
recorded as an `ThemeError` for that name, the loop continuing either way. -/
def stepTheme (resolve : String → Except String BaseStyles)
    (inlineMap : List (String × BaseStyles)) (st : ProcState) (t : String) :
    ProcState :=
  match lookupAssoc inlineMap t with
  | some styles => ⟨objInsert st.result t styles, st.errors, st.invoked⟩
  | none =>
    match resolve t with
    | .ok d => ⟨objInsert st.result t d, st.errors, st.invoked ++ [t]⟩
    | .error e => ⟨st.result, st.errors ++ [⟨t, e⟩], st.invoked ++ [t]⟩

/-- The orchestrator's theme loop, threading the run state left to right. -/
def processGo (resolve : String → Except String BaseStyles)
    (inlineMap : List (String × BaseStyles)) (st : ProcState) :
    List String → ProcState
  | [] => st
  | t :: rest => processGo resolve inlineMap (stepTheme resolve inlineMap st t) rest

/-- Process the final name list starting from the empty run state. -/
def processThemes (resolve : String → Except String BaseStyles)
    (inlineMap : List (String × BaseStyles)) (names : List String) : ProcState :=
  processGo resolve inlineMap ⟨[], [], []⟩ names

/-- The orchestrator's merged name list: start from the explicit names; when
CSS reading is enabled, fold in the referenced names and then the inline
names, deduplicating on each (non-empty) merge exactly as `main` does. -/
def mergedNames (themes : List String) (readCss : Bool)
    (fmt : String → Option String) (css : String) : List String :=
  if readCss then
    let refs := extractThemeNamesFromCss css
    let inls := extractInlineThemesFromCss fmt css
    let all1 := if refs.length > 0 then dedupFirst (themes ++ refs) else themes
    if inls.length > 0 then dedupFirst (all1 ++ inls.map (·.name)) else all1
  else themes

/-- The orchestrator's inline side lookup: each parsed inline theme's name
mapped to its converted styles (a later record with the same name
overwrites, as `Map.set` does), empty when CSS reading is disabled. -/
def inlineThemeMapOf (readCss : Bool) (fmt : String → Option String)
    (css : String) : List (String × BaseStyles) :=
  if readCss then
    (extractInlineThemesFromCss fmt css).foldl
      (fun m t => objInsert m t.name t.styles) []
  else []

/-- The orchestrator (`main` without its I/O shell): merge the names, build
the inline lookup, and run the per-theme loop. -/
def orchestrate (resolve : String → Except String BaseStyles)
    (themes : List String) (readCss : Bool) (fmt : String → Option String)
    (css : String) : ProcState :=
  processThemes resolve (inlineThemeMapOf readCss fmt css)
    (mergedNames themes readCss fmt css)

/-- The reference-block example CSS of the spec (claim C4). -/
def exRefCss : String :=
  "@plugin \"daisyui\" \x7b themes: light --default, dark --prefersdark, forest; \x7d;"

/-- Reference-block CSS with a duplicated theme name. -/
def exDupCss : String :=
  "@plugin \"daisyui\" \x7b themes: light, dark, light; \x7d;"

/-- CSS with no plugin block at all. -/
def exPlainCss : String := "body \x7b color: red; \x7d"

/-- An inline block declaring a name but no style properties. -/
def exInlineNameOnly : String :=
  "@plugin \"daisyui/theme\" \x7b\n name: mytheme;\n\x7d"

/-- An inline block declaring a style property but no name. -/
def exInlinePropsOnly : String :=
  "@plugin \"daisyui/theme\" \x7b\n --color-base-100: #ffffff;\n\x7d"

/-- The end-to-end merge example CSS (claim C2): a reference block naming
`light, dark` and an inline block naming `mediumseagreen`. -/
def exMergeCss : String :=
  "@plugin \"daisyui\" \x7b themes: light, dark; \x7d;\n@plugin \"daisyui/theme\" \x7b\n name: mediumseagreen;\n --color-primary: #12ad51;\n\x7d;"

/-- A formatter witness that always converts to a fixed hex string. -/
def wFmt : String → Option String := fun _ => some "#ffffff"

/-- A formatter witness that always fails (conversion threw or was falsy). -/
def wFmtFail : String → Option String := fun _ => none

/-- A resolver witness: succeeds with an empty style map for `light` and
`forest`, fails for everything else. -/
def wResolve : String → Except String BaseStyles := fun t =>
  if t = "light" then .ok [("primary", .scalar (.str "#111111"))]
  else if t = "forest" then .ok [("primary", .scalar (.str "#333333"))]
  else .error ("Could not import theme \x27" ++ t ++
    "\x27 from any known path in node_modules")

/-- A candidate-behaviour witness over the `/w`-rooted candidate list for
theme `forest`: the first three existing candidates fail in each of the
three fail-soft ways, the fourth succeeds with two `addBase` calls. -/
def wEnv : CandPath → CandidateBehavior := fun p =>
  if p = ["/w", "node_modules", "daisyui", "theme", "forest", "index.js"] then
    .loadError
  else if p = ["/w", "node_modules", "daisyui", "dist", "theme", "forest", "index.js"] then
    .notCallable
  else if p = ["/w", "node_modules", "daisyui", "src", "theming", "themes", "forest.js"] then
    .invokeError
  else if p = ["/w", "node_modules", "daisyui", "dist", "themes", "forest.js"] then
    .success [[("--color-primary", .scalar (.str "red"))],
              [("--color-primary", .scalar (.str "#22c55e"))]]
  else .loadError

/-- Auxiliary: the deduplication fold step. -/
def dedupStep {α : Type} [DecidableEq α] (acc : List α) (x : α) : List α :=
  if x ∈ acc then acc else acc ++ [x]

theorem dedupFirst_eq_foldl {α : Type} [DecidableEq α] (l : List α) :
    dedupFirst l = l.foldl dedupStep [] := rfl

theorem foldl_dedupStep_nodup {α : Type} [DecidableEq α] :
    ∀ (l acc : List α), acc.Nodup → (l.foldl dedupStep acc).Nodup := by
  intro l
  induction l with
  | nil => intro acc h; simpa using h
  | cons x tl ih =>
    intro acc h
    simp only [List.foldl_cons]
    apply ih
    unfold dedupStep
    split
    · exact h
    · next hmem => simpa [List.nodup_append, h] using hmem

/-- `dedupFirst` always produces a duplicate-free list. -/
theorem dedupFirst_nodup {α : Type} [DecidableEq α] (l : List α) :
    (dedupFirst l).Nodup :=
  foldl_dedupStep_nodup l [] List.nodup_nil

theorem foldl_dedupStep_of_nodup {α : Type} [DecidableEq α] :
    ∀ (l acc : List α), (acc ++ l).Nodup → l.foldl dedupStep acc = acc ++ l := by
  intro l
  induction l with
  | nil => intro acc _; simp
  | cons x tl ih =>
    intro acc h
    have hx : x ∉ acc := by
      intro hmem
      exact (List.disjoint_of_nodup_append h) hmem (List.mem_cons_self x tl)
    simp only [List.foldl_cons]
    rw [show dedupStep acc x = acc ++ [x] by simp [dedupStep, hx]]
    rw [ih (acc ++ [x]) (by simpa using h)]
    simp

/-- A duplicate-free list is unchanged by `dedupFirst`. -/
theorem dedupFirst_eq_self {α : Type} [DecidableEq α] (l : List α)
    (h : l.Nodup) : dedupFirst l = l := by
  simpa using foldl_dedupStep_of_nodup l [] (by simpa using h)

/-- Deduplicating an already-deduplicated front part is redundant. -/
theorem dedupFirst_dedup_append {α : Type} [DecidableEq α] (l m : List α) :
    dedupFirst (dedupFirst l ++ m) = dedupFirst (l ++ m) := by
  unfold dedupFirst
  rw [List.foldl_append, List.foldl_append]
  congr 1
  have h1 : (dedupFirst l).foldl dedupStep [] = dedupFirst l :=
    foldl_dedupStep_of_nodup (dedupFirst l) []
      (by simpa using dedupFirst_nodup l)
  simpa [dedupFirst] using h1

theorem strStarts_iff (s p : String) : strStarts s p = true ↔ p.data <+: s.data := by
  unfold strStarts
  exact List.isPrefixOf_iff_prefix

/-- A key beginning with the compound colour prefix also begins with the
generic variable prefix. -/
theorem strStarts_color_dashes (s : String)
    (h : strStarts s "--color-" = true) : strStarts s "--" = true := by
  rw [strStarts_iff] at h ⊢
  exact List.IsPrefix.trans (by decide) h

/-- `objInsert` never empties a map. -/
theorem objInsert_ne_nil {β : Type} (m : List (String × β)) (k : String)
    (v : β) : objInsert m k v ≠ [] := by
  unfold objInsert
  split
  · next h =>
    cases m with
    | nil => simp at h
    | cons hd tl => simp
  · simp

theorem foldl_objInsert_ne_nil {β : Type}
    (f : String × β → String × β) :
    ∀ (l acc : List (String × β)), acc ≠ [] →
      l.foldl (fun conv kv => objInsert conv (f kv).1 (f kv).2) acc ≠ [] := by
  intro l
  induction l with
  | nil => intro acc h; simpa using h
  | cons x tl ih =>
    intro acc h
    simp only [List.foldl_cons]
    exact ih _ (objInsert_ne_nil _ _ _)

/-- `convertStyles` preserves (non-)emptiness. -/
theorem convertStyles_eq_nil_iff (fmt : String → Option String)
    (styles : BaseStyles) : convertStyles fmt styles = [] ↔ styles = [] := by
  constructor
  · intro h
    cases hs : styles with
    | nil => rfl
    | cons x tl =>
      exfalso
      apply foldl_objInsert_ne_nil
        (fun kv => (cleanKey kv.1, convertValue fmt kv.2)) tl
        (objInsert [] (cleanKey x.1) (convertValue fmt x.2))
        (objInsert_ne_nil _ _ _)
      rw [hs] at h
      simpa [convertStyles] using h
  · intro h
    rw [h]
    rfl

theorem lookupAssoc_append {β : Type} (m m' : List (String × β)) (t : String) :
    lookupAssoc (m ++ m') t =
      match lookupAssoc m t with
      | some v => some v
      | none => lookupAssoc m' t := by
  induction m with
  | nil => simp [lookupAssoc]
  | cons hd tl ih =>
    obtain ⟨k, v⟩ := hd
    by_cases ht : t = k
    · simp [lookupAssoc, ht]
    · simp [lookupAssoc, ht, ih]

theorem lookupAssoc_map_overwrite {β : Type} (k : String) (v : β) :
    ∀ m : List (String × β), m.any (fun p => p.1 = k) = true →
      lookupAssoc (m.map (fun p => if p.1 = k then (k, v) else p)) k = some v := by
  intro m
  induction m with
  | nil => intro h; simp at h
  | cons hd tl ih =>
    intro h
    obtain ⟨k1, v1⟩ := hd
    simp only [List.map_cons]
    by_cases hk : k1 = k
    · rw [if_pos (show (k1, v1).1 = k from hk)]
      simp [lookupAssoc]
    · rw [if_neg (show ¬(k1, v1).1 = k from hk)]
      have htl : tl.any (fun p => p.1 = k) = true := by
        simpa [hk] using h
      simp [lookupAssoc, Ne.symm hk, ih htl]

theorem lookupAssoc_map_ne {β : Type} (k t : String) (v : β) (h : t ≠ k) :
    ∀ m : List (String × β),
      lookupAssoc (m.map (fun p => if p.1 = k then (k, v) else p)) t =
        lookupAssoc m t := by
  intro m
  induction m with
  | nil => simp
  | cons hd tl ih =>
    obtain ⟨k1, v1⟩ := hd
    simp only [List.map_cons]
    by_cases hk : k1 = k
    · subst hk
      rw [if_pos (show (k1, v1).1 = k1 from rfl)]
      simp [lookupAssoc, h, ih]
    · rw [if_neg (show ¬(k1, v1).1 = k from hk)]
      by_cases ht : t = k1
      · simp [lookupAssoc, ht]
      · simp [lookupAssoc, ht, ih]

/-- Looking up the key just written returns the written value. -/
theorem lookupAssoc_objInsert_self {β : Type} (m : List (String × β))
    (k : String) (v : β) : lookupAssoc (objInsert m k v) k = some v := by
  unfold objInsert
  split
  · next hany => exact lookupAssoc_map_overwrite k v m hany
  · next hany =>
    rw [lookupAssoc_append]
    have hnone : lookupAssoc m k = none := by
      induction m with
      | nil => rfl
      | cons hd tl ih =>
        obtain ⟨k1, v1⟩ := hd
        simp only [List.any_cons, Bool.or_eq_true, decide_eq_true_eq] at hany
        push_neg at hany
        simp [lookupAssoc, Ne.symm hany.1, ih (by simpa using hany.2)]
    simp [hnone, lookupAssoc]

/-- Writing a different key does not change a lookup. -/
theorem lookupAssoc_objInsert_ne {β : Type} (m : List (String × β))
    (k t : String) (v : β) (h : t ≠ k) :
    lookupAssoc (objInsert m k v) t = lookupAssoc m t := by
  unfold objInsert
  split
  · exact lookupAssoc_map_ne k t v h m
  · rw [lookupAssoc_append]
    cases hm : lookupAssoc m t
    · simp [lookupAssoc, h]
    · simp

/-- The cleaning step strips exactly one prefix, by the stated priority. -/
theorem cleanKey_cases (k : String) :
    (strStarts k "--color-" = true → cleanKey k = strDrop k 8) ∧
    (strStarts k "--color-" = false → strStarts k "--" = true →
      cleanKey k = strDrop k 2) ∧
    (strStarts k "--color-" = false → strStarts k "--" = false →
      cleanKey k = k) := by
  refine ⟨fun h1 => ?_, fun h1 h2 => ?_, fun h1 h2 => ?_⟩
  · simp [cleanKey, h1]
  · simp [cleanKey, h1, h2]
  · simp [cleanKey, h1, h2]

/-- For keys outside the two pathological families (leading `----` or
leading `--color---`), the cleaned key keeps no leading `--`. -/
theorem cleanKey_no_leading_dashes (k : String)
    (h4 : strStarts k "----" = false)
    (hcd : strStarts k "--color---" = false) :
    strStarts (cleanKey k) "--" = false := by
  by_cases h1 : strStarts k "--color-" = true
  · rw [(cleanKey_cases k).1 h1]
    cases hcon : strStarts (strDrop k 8) "--" with
    | false => rfl
    | true =>
      exfalso
      obtain ⟨t, ht⟩ := (strStarts_iff k "--color-").mp h1
      have hdr : (strDrop k 8).data = t := by
        unfold strDrop
        rw [← ht, show (8 : Nat) = ("--color-".data).length from rfl,
          List.drop_left]
      obtain ⟨u, hu⟩ := (strStarts_iff (strDrop k 8) "--").mp hcon
      rw [hdr] at hu
      have hk : strStarts k "--color---" = true := by
        rw [strStarts_iff]
        refine ⟨u, ?_⟩
        rw [← ht, ← hu]
        rfl
      rw [hk] at hcd
      exact Bool.noConfusion hcd
  · have h1f : strStarts k "--color-" = false := by
      simpa using h1
    by_cases h2 : strStarts k "--" = true
    · rw [(cleanKey_cases k).2.1 h1f h2]
      cases hcon : strStarts (strDrop k 2) "--" with
      | false => rfl
      | true =>
        exfalso
        obtain ⟨t, ht⟩ := (strStarts_iff k "--").mp h2
        have hdr : (strDrop k 2).data = t := by
          unfold strDrop
          rw [← ht, show (2 : Nat) = ("--".data).length from rfl,
            List.drop_left]
        obtain ⟨u, hu⟩ := (strStarts_iff (strDrop k 2) "--").mp hcon
        rw [hdr] at hu
        have hk : strStarts k "----" = true := by
          rw [strStarts_iff]
          refine ⟨u, ?_⟩
          rw [← ht, ← hu]
          rfl
        rw [hk] at h4
        exact Bool.noConfusion h4
    · have h2f : strStarts k "--" = false := by simpa using h2
      rw [(cleanKey_cases k).2.2 h1f h2f]
      exact h2f

/-- When every path in the list fails (load throws, export not callable, or
invocation throws), the candidate loop raises the not-found message. -/
theorem tryPaths_all_fail (env : CandPath → CandidateBehavior)
    (fmt : String → Option String) (themeName : String) :
    ∀ l : List CandPath, (∀ q ∈ l, ∀ cs, env q ≠ .success cs) →
      tryPaths env fmt themeName l =
        .error ("Could not import theme \x27" ++ themeName ++
          "\x27 from any known path in node_modules") := by
  intro l
  induction l with
  | nil => intro _; rfl
  | cons p rest ih =>
    intro h
    cases hb : env p with
    | success cs => exact absurd hb (h p (List.mem_cons_self p rest) cs)
    | loadError =>
      simp only [tryPaths, hb]
      exact ih (fun q hq cs => h q (List.mem_cons_of_mem p hq) cs)
    | notCallable =>
      simp only [tryPaths, hb]
      exact ih (fun q hq cs => h q (List.mem_cons_of_mem p hq) cs)
    | invokeError =>
      simp only [tryPaths, hb]
      exact ih (fun q hq cs => h q (List.mem_cons_of_mem p hq) cs)

/-- The candidate loop returns the converted accumulator of the first
successful candidate, regardless of what follows it. -/
theorem tryPaths_first_success (env : CandPath → CandidateBehavior)
    (fmt : String → Option String) (themeName : String)
    (calls : List BaseStyles) :
    ∀ (pre : List CandPath) (p : CandPath) (post : List CandPath),
      (∀ q ∈ pre, ∀ cs, env q ≠ .success cs) → env p = .success calls →
      tryPaths env fmt themeName (pre ++ p :: post) =
        .ok (convertStyles fmt (mergeCalls calls)) := by
  intro pre
  induction pre with
  | nil =>
    intro p post _ hp
    simp only [List.nil_append, tryPaths, hp]
  | cons q rest ih =>
    intro p post h hp
    cases hb : env q with
    | success cs => exact absurd hb (h q (List.mem_cons_self q rest) cs)
    | loadError =>
      simp only [List.cons_append, tryPaths, hb]
      exact ih p post (fun r hr cs => h r (List.mem_cons_of_mem q hr) cs) hp
    | notCallable =>
      simp only [List.cons_append, tryPaths, hb]
      exact ih p post (fun r hr cs => h r (List.mem_cons_of_mem q hr) cs) hp
    | invokeError =>
      simp only [List.cons_append, tryPaths, hb]
      exact ih p post (fun r hr cs => h r (List.mem_cons_of_mem q hr) cs) hp

/-- A name present in the inline lookup is never added to the list of
resolver invocations. -/
theorem processGo_not_invoked (resolve : String → Except String BaseStyles)
    (inlineMap : List (String × BaseStyles)) (t : String)
    (hmap : (lookupAssoc inlineMap t).isSome = true) :
    ∀ (names : List String) (st : ProcState), t ∉ st.invoked →
      t ∉ (processGo resolve inlineMap st names).invoked := by
  intro names
  induction names with
  | nil => intro st h; exact h
  | cons n rest ih =>
    intro st h
    show t ∉ (processGo resolve inlineMap (stepTheme resolve inlineMap st n) rest).invoked
    apply ih
    unfold stepTheme
    by_cases hn : n = t
    · subst hn
      obtain ⟨s, hs⟩ := Option.isSome_iff_exists.mp hmap
      rw [hs]
      exact h
    · cases hl : lookupAssoc inlineMap n with
      | some styles => exact h
      | none =>
        cases hr : resolve n with
        | ok d =>
          simp only [List.mem_append, List.mem_singleton]
          rintro (hc | hc)
          · exact h hc
          · exact hn hc.symm
        | error e =>
          simp only [List.mem_append, List.mem_singleton]
          rintro (hc | hc)
          · exact h hc
          · exact hn hc.symm

/-- A name present in the inline lookup ends up in the result collection
with exactly the looked-up styles, once it occurs in the processed list. -/
theorem processGo_inline_result (resolve : String → Except String BaseStyles)
    (inlineMap : List (String × BaseStyles)) (t : String) (s : BaseStyles)
    (hmap : lookupAssoc inlineMap t = some s) :
    ∀ (names : List String) (st : ProcState),
      (t ∈ names ∨ lookupAssoc st.result t = some s) →
      lookupAssoc (processGo resolve inlineMap st names).result t = some s := by
  intro names
  induction names with
  | nil =>
    intro st h
    rcases h with h | h
    · simp at h
    · exact h
  | cons n rest ih =>
    intro st h
    show lookupAssoc (processGo resolve inlineMap
      (stepTheme resolve inlineMap st n) rest).result t = some s
    apply ih
    by_cases hn : n = t
    · subst hn
      right
      unfold stepTheme
      rw [hmap]
      exact lookupAssoc_objInsert_self _ _ _
    · rcases h with h | h
      · rcases List.mem_cons.mp h with h1 | h1
        · exact absurd h1.symm hn
        · left
          exact h1
      · right
        unfold stepTheme
        cases hl : lookupAssoc inlineMap n with
        | some styles =>
          show lookupAssoc (objInsert st.result n styles) t = some s
          rw [lookupAssoc_objInsert_ne _ _ _ _ (Ne.symm hn)]
          exact h
        | none =>
          cases hr : resolve n with
          | ok d =>
            show lookupAssoc (objInsert st.result n d) t = some s
            rw [lookupAssoc_objInsert_ne _ _ _ _ (Ne.symm hn)]
            exact h
          | error e => exact h

/-- Claim C10: the combined cleaning-and-normalisation step can map two
distinct raw keys to the same cleaned key — `--color-primary` and
`--primary` both clean to `primary` — in which case the later-iterated raw
entry's value overwrites the earlier one and the output style map is
strictly smaller than the input. -/
theorem c10_clean_key_collision :
    convertStyles (fun _ => none)
        [("--color-primary", .scalar (.str "a")),
         ("--primary", .scalar (.str "b"))] =
      [("primary", .scalar (.str "b"))] ∧
    (convertStyles (fun _ => none)
        [("--color-primary", .scalar (.str "a")),
         ("--primary", .scalar (.str "b"))]).length <
      ([("--color-primary", StyleValue.scalar (.str "a")),
        ("--primary", StyleValue.scalar (.str "b"))] : BaseStyles).length := by
  constructor
  · decide
  · decide

/-- Claim C7, counterexample: the key cleaner is not idempotent on every
key — on `----` the first pass strips `--` leaving `--`, and a second pass
strips again, so the double clean differs from the single clean. -/
theorem c7_clean_idempotent_counterexample :
    cleanKey (cleanKey "----") ≠ cleanKey "----" := by decide

/-- Claim C7 (amended): the key cleaner is idempotent on every key whose
cleaned form does not itself begin with the generic `--` prefix
(equivalently, every key not beginning with `----` or `--color---`). -/
theorem c7_clean_idempotent_amended (k : String)
    (h : strStarts (cleanKey k) "--" = false) :
    cleanKey (cleanKey k) = cleanKey k := by
  have hc : strStarts (cleanKey k) "--color-" = false := by
    cases hx : strStarts (cleanKey k) "--color-" with
    | false => rfl
    | true =>
      have hd := strStarts_color_dashes _ hx
      rw [h] at hd
      exact Bool.noConfusion hd
  exact (cleanKey_cases (cleanKey k)).2.2 hc h

/-- Claim C7 witness: the amended idempotence at the concrete key
`--color-primary`. -/
theorem c7_clean_idempotent_witness :
    cleanKey (cleanKey "--color-primary") = cleanKey "--color-primary" :=
  c7_clean_idempotent_amended "--color-primary" (by decide)

/-- Claim C8, counterexample: the prefix-free invariant fails — the raw key
`--color---x` cleans to `--x`, which still starts with the generic `--`
prefix. -/
theorem c8_prefix_free_counterexample :
    strStarts (cleanKey "--color---x") "--" = true := by decide

/-- Claim C8 (amended): for every raw key not beginning with `----` or
`--color---`, the cleaned key starts with neither the generic `--` prefix
nor the compound `--color-` prefix, and exactly one prefix is stripped per
key by the stated priority. -/
theorem c8_prefix_free_amended (k : String)
    (h4 : strStarts k "----" = false)
    (hcd : strStarts k "--color---" = false) :
    strStarts (cleanKey k) "--" = false ∧
    strStarts (cleanKey k) "--color-" = false ∧
    (strStarts k "--color-" = true → cleanKey k = strDrop k 8) ∧
    (strStarts k "--color-" = false → strStarts k "--" = true →
      cleanKey k = strDrop k 2) ∧
    (strStarts k "--color-" = false → strStarts k "--" = false →
      cleanKey k = k) := by
  have h1 := cleanKey_no_leading_dashes k h4 hcd
  refine ⟨h1, ?_, (cleanKey_cases k).1, (cleanKey_cases k).2.1,
    (cleanKey_cases k).2.2⟩
  cases hx : strStarts (cleanKey k) "--color-" with
  | false => rfl
  | true =>
    have hd := strStarts_color_dashes _ hx
    rw [h1] at hd
    exact Bool.noConfusion hd

/-- Claim C8 witness: the amended prefix-free property at the concrete key
`--color-base-100`. -/
theorem c8_prefix_free_witness :
    strStarts (cleanKey "--color-base-100") "--" = false :=
  (c8_prefix_free_amended "--color-base-100" (by decide) (by decide)).1

/-- Claim C6: colour normalisation is fail-soft — for a candidate string
(containing `oklch(`, `rgb(`, `hsl(` or `lch(`), `convertToHex` returns
either the original string or the formatter's hex output (which, under the
formatter's contract, is `#`-prefixed); it never throws and never yields
null by construction (it is a total `String`-valued function); non-candidate
strings, numbers and nested records pass through unchanged. -/
theorem c6_color_normalizer_fail_soft (fmt : String → Option String)
    (hfmt : ∀ s h, fmt s = some h → h ≠ "" → strStarts h "#" = true)
    (s : String) :
    (isColorCandidate s = true →
      (convertToHex fmt s = s ∨ strStarts (convertToHex fmt s) "#" = true) ∧
      convertValue fmt (.scalar (.str s)) = .scalar (.str (convertToHex fmt s))) ∧
    (isColorCandidate s = false →
      convertValue fmt (.scalar (.str s)) = .scalar (.str s)) ∧
    (∀ n : Int, convertValue fmt (.scalar (.num n)) = .scalar (.num n)) ∧
    (∀ m, convertValue fmt (.nested m) = .nested m) := by
  refine ⟨fun hc => ⟨?_, ?_⟩, fun hc => ?_, fun n => rfl, fun m => rfl⟩
  · unfold convertToHex
    cases hf : fmt s with
    | none => exact Or.inl rfl
    | some h =>
      by_cases he : h = ""
      · exact Or.inl (by simp [he])
      · refine Or.inr ?_
        show strStarts (if h = "" then s else h) "#" = true
        rw [if_neg he]
        exact hfmt s h hf he
  · simp [convertValue, hc]
  · simp [convertValue, hc]

/-- Claim C6 witness: the fail-soft property at the concrete candidate
`oklch(0.7 0.1 150)` under the constant-hex formatter `wFmt`. -/
theorem c6_color_normalizer_witness :
    convertToHex wFmt "oklch(0.7 0.1 150)" = "oklch(0.7 0.1 150)" ∨
    strStarts (convertToHex wFmt "oklch(0.7 0.1 150)") "#" = true :=
  ((c6_color_normalizer_fail_soft wFmt
      (by
        intro s h hh hne
        simp only [wFmt, Option.some.injEq] at hh
        subst hh
        decide)
      "oklch(0.7 0.1 150)").1 (by decide)).1

/-- Claim C4: the referenced-theme-name parser truncates flag markers and
deduplicates preserving first occurrence — the spec's example yields
`["light","dark","forest"]`, duplicates collapse keeping the first
occurrence, a CSS string with no matching block yields the empty list (the
function is total, so no input raises), and every output is
duplicate-free. -/
theorem c4_referenced_name_extraction :
    extractThemeNamesFromCss exRefCss = ["light", "dark", "forest"] ∧
    extractThemeNamesFromCss exDupCss = ["light", "dark"] ∧
    extractThemeNamesFromCss exPlainCss = [] ∧
    ∀ css : String, (extractThemeNamesFromCss css).Nodup := by
  refine ⟨by decide, by decide, by decide, fun css => dedupFirst_nodup _⟩

/-- Claim C5: an inline block emits a `ThemeRecord` iff it yielded a
non-empty name and its converted style map has at least one entry (the
source tests the raw map, which is empty exactly when the converted map
is); a block with a name but no `--` properties and a block with properties
but no name are both dropped silently, producing no record and no error
(the parser is a total function into lists). -/
theorem c5_inline_emission_condition (fmt : String → Option String) :
    (∀ body : String, (processBlock fmt body).isSome = true ↔
      ((blockParse body).1 ≠ "" ∧ convertStyles fmt (blockParse body).2 ≠ [])) ∧
    extractInlineThemesFromCss fmt exInlineNameOnly = [] ∧
    extractInlineThemesFromCss fmt exInlinePropsOnly = [] := by
  refine ⟨fun body => ?_, ?_, ?_⟩
  · unfold processBlock
    by_cases hcond : (blockParse body).1 ≠ "" ∧ (blockParse body).2 ≠ []
    · rw [if_pos hcond]
      simp only [Option.isSome_some, true_iff]
      exact ⟨hcond.1, by
        rw [Ne, convertStyles_eq_nil_iff]
        exact hcond.2⟩
    · rw [if_neg hcond]
      simp only [Option.isSome_none, Bool.false_eq_true, false_iff]
      intro hcon
      exact hcond ⟨hcon.1, by
        have := hcon.2
        rw [Ne, convertStyles_eq_nil_iff] at this
        exact this⟩
  · show (inlineBodies exInlineNameOnly).filterMap (processBlock fmt) = []
    rw [show inlineBodies exInlineNameOnly = ["\n name: mytheme;\n"] from by decide]
    simp [processBlock,
      show blockParse "\n name: mytheme;\n" = ("mytheme", []) from by decide]
  · show (inlineBodies exInlinePropsOnly).filterMap (processBlock fmt) = []
    rw [show inlineBodies exInlinePropsOnly =
      ["\n --color-base-100: #ffffff;\n"] from by decide]
    simp [processBlock,
      show blockParse "\n --color-base-100: #ffffff;\n" =
        ("", [("--color-base-100", .scalar (.str "#ffffff"))]) from by decide]

/-- Claim C9, counterexample: at the concrete invocation (cwd `/app`, theme
`forest`, both package roots resolving), the entries following the four
direct cwd locations are not the claimed four parent-directory sub-layouts —
the source's Strategy 2 builds only two parent candidates. -/
theorem c9_parent_candidates_counterexample :
    ¬ ((buildCandidatePaths "/app" "forest" (some "/mroot") (some "/sroot")).take 8 =
      cwdCandidatePaths "/app" "forest" ++
      ([ ["/app", "..", "node_modules", "daisyui", "theme", "forest", "index.js"],
         ["/app", "..", "node_modules", "daisyui", "dist", "theme", "forest", "index.js"],
         ["/app", "..", "node_modules", "daisyui", "src", "theming", "themes", "forest.js"],
         ["/app", "..", "node_modules", "daisyui", "dist", "themes", "forest.js"] ] :
        List CandPath)) := by
  decide

/-- Claim C9 (amended): immediately after the four direct cwd locations the
candidate list contains exactly two parent-directory sub-layouts (the
themed-directory and the distribution themed-directory layouts, one level
up), and only then any manifest-resolved and tool-installation
candidates. -/
theorem c9_parent_candidates_amended (cwd themeName : String)
    (manifestRoot scriptRoot : Option String) :
    (buildCandidatePaths cwd themeName manifestRoot scriptRoot).take 6 =
      cwdCandidatePaths cwd themeName ++
      ([ [cwd, "..", "node_modules", "daisyui", "theme", themeName, "index.js"],
         [cwd, "..", "node_modules", "daisyui", "dist", "theme", themeName, "index.js"] ] :
        List CandPath) ∧
    (buildCandidatePaths cwd themeName manifestRoot scriptRoot).drop 6 =
      (match manifestRoot with
       | some r => rootCandidatePaths r themeName
       | none => []) ++
      (match scriptRoot with
       | some r => rootCandidatePaths r themeName
       | none => []) := by
  cases manifestRoot <;> cases scriptRoot <;> exact ⟨rfl, rfl⟩

/-- Claim C3: the resolver returns the converted accumulator of the first
existing candidate whose behaviour is a successful invocation — candidates
whose load throws, whose default export is not callable, or whose
invocation throws are skipped without error — and the outcome does not
depend on candidates after the first success; if no existing candidate
succeeds (in particular, if none exists), resolution fails with the
not-found message naming the theme. -/
theorem c3_resolver_first_success (cwd themeName : String)
    (manifestRoot scriptRoot : Option String)
    (existsOnDisk : CandPath → Bool) (env : CandPath → CandidateBehavior)
    (fmt : String → Option String) :
    (∀ (pre : List CandPath) (p : CandPath) (post : List CandPath)
        (calls : List BaseStyles),
      (dedupFirst (buildCandidatePaths cwd themeName manifestRoot
        scriptRoot)).filter existsOnDisk = pre ++ p :: post →
      (∀ q ∈ pre, ∀ cs, env q ≠ .success cs) →
      env p = .success calls →
      extractThemeData cwd themeName manifestRoot scriptRoot existsOnDisk
          env fmt = .ok (convertStyles fmt (mergeCalls calls))) ∧
    ((∀ q ∈ (dedupFirst (buildCandidatePaths cwd themeName manifestRoot
        scriptRoot)).filter existsOnDisk, ∀ cs, env q ≠ .success cs) →
      extractThemeData cwd themeName manifestRoot scriptRoot existsOnDisk
          env fmt = .error ("Could not import theme \x27" ++ themeName ++
            "\x27 from any known path in node_modules")) := by
  constructor
  · intro pre p post calls hsplit hpre hp
    unfold extractThemeData
    rw [hsplit]
    exact tryPaths_first_success env fmt themeName calls pre p post hpre hp
  · intro hall
    unfold extractThemeData
    exact tryPaths_all_fail env fmt themeName _ hall

/-- Claim C3 witness: with three failing existing candidates (thrown load,
non-callable export, thrown invocation) ahead of a successful one, the
resolver returns the fourth candidate's converted, merged accumulator. -/
theorem c3_resolver_witness :
    extractThemeData "/w" "forest" none none (fun _ => true) wEnv wFmtFail =
      .ok [("primary", .scalar (.str "#22c55e"))] := by
  have h := (c3_resolver_first_success "/w" "forest" none none
      (fun _ => true) wEnv wFmtFail).1
    [["/w", "node_modules", "daisyui", "theme", "forest", "index.js"],
     ["/w", "node_modules", "daisyui", "dist", "theme", "forest", "index.js"],
     ["/w", "node_modules", "daisyui", "src", "theming", "themes", "forest.js"]]
    ["/w", "node_modules", "daisyui", "dist", "themes", "forest.js"]
    [["/w", "..", "node_modules", "daisyui", "theme", "forest", "index.js"],
     ["/w", "..", "node_modules", "daisyui", "dist", "theme", "forest", "index.js"]]
    [[("--color-primary", .scalar (.str "red"))],
     [("--color-primary", .scalar (.str "#22c55e"))]]
    (by decide)
    (by
      intro q hq cs
      fin_cases hq <;> intro hcon <;> exact CandidateBehavior.noConfusion hcon)
    (by decide)
  rw [h]
  exact congrArg Except.ok (by decide)

/-- Claim C1: per-theme error isolation — over the final deduplicated name
list, a resolver failure for a name without an inline definition appends an
`ThemeError` naming that theme and processing continues; with three
distinct requested themes of which exactly the second fails resolution, the
returned collection holds exactly the other two (in order) and the error
list holds exactly the one entry for the failed theme. -/
theorem c1_error_isolation (fmt : String → Option String)
    (resolve : String → Except String BaseStyles)
    (t1 t2 t3 : String) (s1 s3 : BaseStyles) (e : String)
    (_h12 : t1 ≠ t2) (_h23 : t2 ≠ t3) (h13 : t1 ≠ t3)
    (hr1 : resolve t1 = .ok s1) (hr2 : resolve t2 = .error e)
    (hr3 : resolve t3 = .ok s3) :
    orchestrate resolve [t1, t2, t3] false fmt "" =
      ⟨[(t1, s1), (t3, s3)], [⟨t2, e⟩], [t1, t2, t3]⟩ := by
  show processGo resolve [] (stepTheme resolve [] ⟨[], [], []⟩ t1) [t2, t3] = _
  have hs1 : stepTheme resolve [] ⟨[], [], []⟩ t1 = ⟨[(t1, s1)], [], [t1]⟩ := by
    unfold stepTheme
    rw [show lookupAssoc ([] : List (String × BaseStyles)) t1 = none from rfl,
      hr1]
    rfl
  rw [hs1]
  show processGo resolve []
    (stepTheme resolve [] ⟨[(t1, s1)], [], [t1]⟩ t2) [t3] = _
  have hs2 : stepTheme resolve [] ⟨[(t1, s1)], [], [t1]⟩ t2 =
      ⟨[(t1, s1)], [⟨t2, e⟩], [t1, t2]⟩ := by
    unfold stepTheme
    rw [show lookupAssoc ([] : List (String × BaseStyles)) t2 = none from rfl,
      hr2]
    rfl
  rw [hs2]
  show processGo resolve []
    (stepTheme resolve [] ⟨[(t1, s1)], [⟨t2, e⟩], [t1, t2]⟩ t3) [] = _
  have hs3 : stepTheme resolve [] ⟨[(t1, s1)], [⟨t2, e⟩], [t1, t2]⟩ t3 =
      ⟨[(t1, s1), (t3, s3)], [⟨t2, e⟩], [t1, t2, t3]⟩ := by
    unfold stepTheme
    rw [show lookupAssoc ([] : List (String × BaseStyles)) t3 = none from rfl,
      hr3]
    have hins : objInsert [(t1, s1)] t3 s3 = [(t1, s1), (t3, s3)] := by
      unfold objInsert
      rw [if_neg (by simp [h13])]
      rfl
    show ProcState.mk (objInsert [(t1, s1)] t3 s3) [⟨t2, e⟩] ([t1, t2] ++ [t3]) = _
    rw [hins]
    rfl
  rw [hs3]
  rfl

/-- Claim C1 witness: the three-theme scenario at concrete inputs — `light`
and `forest` resolve, `dark` fails — yields the two successes and the one
error entry. -/
theorem c1_error_isolation_witness :
    orchestrate wResolve ["light", "dark", "forest"] false wFmtFail "" =
      ⟨[("light", [("primary", .scalar (.str "#111111"))]),
        ("forest", [("primary", .scalar (.str "#333333"))])],
       [⟨"dark", "Could not import theme \x27dark\x27 from any known path in node_modules"⟩],
       ["light", "dark", "forest"]⟩ :=
  c1_error_isolation wFmtFail wResolve "light" "dark" "forest"
    [("primary", .scalar (.str "#111111"))]
    [("primary", .scalar (.str "#333333"))]
    "Could not import theme \x27dark\x27 from any known path in node_modules"
    (by decide) (by decide) (by decide) rfl rfl rfl

/-- With CSS reading enabled and a duplicate-free explicit list, the merged
name list equals the one-pass first-occurrence deduplication of
explicit ++ referenced ++ inline names. -/
theorem mergedNames_true_eq (fmt : String → Option String) (css : String)
    (themes : List String) (hnd : themes.Nodup) :
    mergedNames themes true fmt css =
      dedupFirst (themes ++ extractThemeNamesFromCss css ++
        (extractInlineThemesFromCss fmt css).map (·.name)) := by
  unfold mergedNames
  cases hr : extractThemeNamesFromCss css with
  | nil =>
    cases hi : extractInlineThemesFromCss fmt css with
    | nil => simp [hr, hi, dedupFirst_eq_self themes hnd]
    | cons a tl => simp [hr, hi]
  | cons r rt =>
    cases hi : extractInlineThemesFromCss fmt css with
    | nil => simp [hr, hi]
    | cons a tl => simp [hr, hi, dedupFirst_dedup_append, List.append_assoc]

set_option maxRecDepth 16384 in
/-- Claim C2 (amended): with a duplicate-free explicit name list, the final
processing order is the explicit names, then the referenced names, then the
inline names, deduplicated keeping first occurrences; every name in the
inline lookup is resolved from that lookup and never passed to the module
resolver; and the spec's end-to-end example (empty explicit list, a
reference block naming light and dark, an inline block naming
mediumseagreen) yields the ordered list
`["light","dark","mediumseagreen"]` with the resolver invoked only for
light and dark. -/
theorem c2_merge_order_and_shortcircuit (fmt : String → Option String)
    (resolve : String → Except String BaseStyles)
    (explicit : List String) (css : String)
    (hnd : explicit.Nodup) :
    mergedNames explicit true fmt css =
      dedupFirst (explicit ++ extractThemeNamesFromCss css ++
        (extractInlineThemesFromCss fmt css).map (·.name)) ∧
    (∀ t, (lookupAssoc (inlineThemeMapOf true fmt css) t).isSome = true →
      t ∉ (orchestrate resolve explicit true fmt css).invoked) ∧
    (∀ t s, lookupAssoc (inlineThemeMapOf true fmt css) t = some s →
      t ∈ mergedNames explicit true fmt css →
      lookupAssoc (orchestrate resolve explicit true fmt css).result t = some s) ∧
    mergedNames [] true fmt exMergeCss = ["light", "dark", "mediumseagreen"] ∧
    "mediumseagreen" ∉ (orchestrate resolve [] true fmt exMergeCss).invoked := by
  have hbodies : inlineBodies exMergeCss =
      ["\n name: mediumseagreen;\n --color-primary: #12ad51;\n"] := by decide
  have hblock : blockParse "\n name: mediumseagreen;\n --color-primary: #12ad51;\n" =
      ("mediumseagreen", [("--color-primary", .scalar (.str "#12ad51"))]) := by
    decide
  have hinl : extractInlineThemesFromCss fmt exMergeCss =
      [⟨"mediumseagreen",
        convertStyles fmt [("--color-primary", .scalar (.str "#12ad51"))]⟩] := by
    unfold extractInlineThemesFromCss
    rw [hbodies]
    simp [processBlock, hblock]
  have hrefs : extractThemeNamesFromCss exMergeCss = ["light", "dark"] := by
    decide
  have hmap : inlineThemeMapOf true fmt exMergeCss =
      [("mediumseagreen",
        convertStyles fmt [("--color-primary", .scalar (.str "#12ad51"))])] := by
    unfold inlineThemeMapOf
    rw [if_pos rfl, hinl]
    rfl
  refine ⟨mergedNames_true_eq fmt css explicit hnd, ?_, ?_, ?_, ?_⟩
  · intro t ht
    exact processGo_not_invoked resolve (inlineThemeMapOf true fmt css) t ht
      (mergedNames explicit true fmt css) ⟨[], [], []⟩ (by simp)
  · intro t s hs hmem
    exact processGo_inline_result resolve (inlineThemeMapOf true fmt css) t s hs
      (mergedNames explicit true fmt css) ⟨[], [], []⟩ (Or.inl hmem)
  · rw [mergedNames_true_eq fmt exMergeCss [] List.nodup_nil, hrefs, hinl]
    simp only [List.map_cons, List.map_nil]
    decide
  · refine processGo_not_invoked resolve (inlineThemeMapOf true fmt exMergeCss)
      "mediumseagreen" ?_ (mergedNames [] true fmt exMergeCss) ⟨[], [], []⟩
      (by simp)
    rw [hmap]
    rfl

/-- Claim C2 witness: the merge-and-short-circuit property at the concrete
end-to-end example with the always-failing formatter and the witness
resolver. -/
theorem c2_merge_order_witness :
    mergedNames [] true wFmtFail exMergeCss = ["light", "dark", "mediumseagreen"] ∧
    "mediumseagreen" ∉ (orchestrate wResolve [] true wFmtFail exMergeCss).invoked :=
  ⟨(c2_merge_order_and_shortcircuit wFmtFail wResolve [] exMergeCss
      List.nodup_nil).2.2.2.1,
   (c2_merge_order_and_shortcircuit wFmtFail wResolve [] exMergeCss
      List.nodup_nil).2.2.2.2⟩

/-- Claim C2, counterexample: with a duplicated explicit list and a CSS
source contributing no referenced and no inline names, `main` never
deduplicates — the processing order keeps both copies, contradicting the
claimed universal first-occurrence deduplication across the three
sources. -/
theorem c2_merge_order_counterexample :
    mergedNames ["alpha", "alpha"] true wFmtFail "" ≠
      dedupFirst (["alpha", "alpha"] ++ extractThemeNamesFromCss "" ++
        (extractInlineThemesFromCss wFmtFail "").map (·.name)) := by
  decide
